import Mathlib

set_option linter.unusedSectionVars false

/-!
Shallow embedding of the virtual-portfolio accounting and options-analytics
core of the `modular-paper-trading-engine` repository.

Sources embedded here:
* `src/paper_trading_bot.py` — `PaperTradingBot.calculate_option_greeks`,
  `PaperTradingBot.update_position_prices`, `PaperTradingBot.execute_virtual_trade`,
  `PaperTradingBot.initialize_paper_strategy` (ledger pattern), and the
  `VirtualPosition` / `VirtualTrade` / `MarketSnapshot` dataclasses;
* `src/paper_trading_engine.py` — `ModularPaperTradingEngine.add_strategy`;
* `src/strategies/base_strategy.py` — `StrategyPosition`, `BaseStrategy.get_invested_amount`.

Python `float` arithmetic is embedded as exact arithmetic in a linearly ordered
field `R` (instantiated at `ℚ` for concrete evaluation); the transcendental
primitives `math.log`, `math.exp`, `math.sqrt`, `math.erf`, `math.pi` are
abstracted as a parameter structure `MathPrims R`, so every definition stays
computable and every theorem is proved for all interpretations of the
primitives.  Python exceptions inside `try:` blocks are modelled with `Option`
(`none` = an exception reached the `except:` handler); functions whose result
is observed by a caller that distinguishes "returned" from "raised" produce a
`PyResult`.
-/

namespace PaperTrading

/-- Outcome of a Python call as seen by the caller: either a normal return
value, or an uncaught exception identified by its class name. -/
inductive PyResult (α : Type) where
  | ok (val : α)
  | raised (exc : String)
  deriving Repr, DecidableEq

/-- Python dict read (`d[k]` / `d.get(k)`) on an association-list model of a
dict; keys are unique in every dict the code builds, and `alookup` returns the
entry for `k` when present. -/
def alookup {α : Type} (k : String) : List (String × α) → Option α
  | [] => none
  | kv :: rest => if kv.1 = k then some kv.2 else alookup k rest

/-- Python dict write `d[k] = v`: replace the value at an existing key in
place, otherwise append the new binding. -/
def dinsert {α : Type} (k : String) (v : α) : List (String × α) → List (String × α)
  | [] => [(k, v)]
  | kv :: rest => if kv.1 = k then (k, v) :: rest else kv :: dinsert k v rest

/-- The `math`-module primitives used by `calculate_option_greeks`, abstracted
so that the embedding is parametric in their interpretation. -/
structure MathPrims (R : Type) where
  log : R → R
  exp : R → R
  sqrt : R → R
  erf : R → R
  pi : R

variable {R : Type} [LinearOrderedField R] [FloorRing R]

/-- Python `round(x, n)`: round to `n` decimal digits.  (Python rounds ties to
even; `round` here rounds ties up — the two agree except on exact ties, which
is immaterial to every property proved below.) -/
def round_to (n : ℕ) (x : R) : R := ((round (x * 10 ^ n) : ℤ) : R) / 10 ^ n

/-- `norm_cdf` from `calculate_option_greeks`:
`0.5 * (1 + math.erf(x / math.sqrt(2)))`. -/
def norm_cdf (P : MathPrims R) (x : R) : R :=
  (1 / 2) * (1 + P.erf (x / P.sqrt 2))

/-- `norm_pdf` from `calculate_option_greeks`:
`(1/math.sqrt(2*math.pi)) * math.exp(-0.5*x**2)`. -/
def norm_pdf (P : MathPrims R) (x : R) : R :=
  (1 / P.sqrt (2 * P.pi)) * P.exp (-(1 / 2) * x ^ 2)

/-- Python `str.upper()`, used as `option_type.upper()`; mapped over the
characters so that it evaluates by kernel reduction on the ASCII option-type
tags appearing in the code. -/
def pyUpper (s : String) : String := ⟨s.data.map Char.toUpper⟩

/-- The Black-Scholes `d1` term of `calculate_option_greeks`:
`(log(spot/strike) + (r + 0.5*σ²)·T) / (σ·√T)`. -/
def bs_d1 (P : MathPrims R) (spot strike T rate vol : R) : R :=
  (P.log (spot / strike) + (rate + (1 / 2) * vol ^ 2) * T) / (vol * P.sqrt T)

/-- The dict mapping each of `delta`, `gamma`, `theta`, `vega` to `0`,
returned both on expiry (`time_to_expiry <= 0`) and by the `except:`
handler. -/
def zeroGreeks : List (String × R) :=
  [("delta", 0), ("gamma", 0), ("theta", 0), ("vega", 0)]

/-- Conditions under which the body of `calculate_option_greeks` raises a
Python exception (caught by its `except:` handler): `spot/strike` with a zero
`strike` raises `ZeroDivisionError`; `math.log` of a non-positive argument
raises `ValueError`; each of the remaining divisions raises
`ZeroDivisionError` when its denominator is zero. -/
abbrev greeks_err (P : MathPrims R) (spot strike vol T : R) : Prop :=
  strike = 0 ∨ spot / strike ≤ 0 ∨ vol * P.sqrt T = 0 ∨
    spot * vol * P.sqrt T = 0 ∨ 2 * P.sqrt T = 0 ∨
    P.sqrt 2 = 0 ∨ P.sqrt (2 * P.pi) = 0

/-- Body of `PaperTradingBot.calculate_option_greeks` (the code inside its
`try:`), with the expiry string already parsed: `expiry_days` stands for
`(strptime(expiry) - datetime.now()).days`, so `time_to_expiry` is
`expiry_days / 365.0`.  `none` models an exception escaping to the handler. -/
def calculate_option_greeks_body (P : MathPrims R) (spot strike : R)
    (expiry_days : ℤ) (option_type : String) (risk_free_rate volatility : R) :
    Option (List (String × R)) :=
  let time_to_expiry : R := (expiry_days : R) / 365
  if time_to_expiry ≤ 0 then
    some zeroGreeks
  else if greeks_err P spot strike volatility time_to_expiry then
    none
  else
    let d1 := bs_d1 P spot strike time_to_expiry risk_free_rate volatility
    let d2 := d1 - volatility * P.sqrt time_to_expiry
    let delta := if pyUpper option_type = "CE" then norm_cdf P d1 else norm_cdf P d1 - 1
    let gamma := norm_pdf P d1 / (spot * volatility * P.sqrt time_to_expiry)
    let theta := (-spot * norm_pdf P d1 * volatility / (2 * P.sqrt time_to_expiry) -
        risk_free_rate * strike * P.exp (-risk_free_rate * time_to_expiry) *
          (if pyUpper option_type = "CE" then norm_cdf P d2 else norm_cdf P (-d2))) / 365
    let vega := spot * norm_pdf P d1 * P.sqrt time_to_expiry / 100
    some [("delta", round_to 4 delta), ("gamma", round_to 6 gamma),
          ("theta", round_to 2 theta), ("vega", round_to 2 vega)]

/-- `PaperTradingBot.calculate_option_greeks`: the `try:` body, with the
`except:` handler returning the all-zero dict on any exception.  The function
therefore never raises. -/
def calculate_option_greeks (P : MathPrims R) (spot strike : R)
    (expiry_days : ℤ) (option_type : String) (risk_free_rate volatility : R) :
    List (String × R) :=
  (calculate_option_greeks_body P spot strike expiry_days option_type
    risk_free_rate volatility).getD zeroGreeks

/-- The `VirtualPosition` dataclass of `paper_trading_bot.py`.  The `expiry`
string is represented by `expiry_days`, the signed day count
`(strptime(expiry) - datetime.now()).days` that `calculate_option_greeks`
derives from it at valuation time; `iv` and the bookkeeping strings are kept
for frame reasoning. -/
structure VirtualPosition (R : Type) where
  trade_id : String
  symbol : String
  tradingsymbol : String
  instrument_token : ℤ
  strike : R
  option_type : String
  expiry_days : ℤ
  quantity : ℤ
  entry_price : R
  entry_date : String
  current_price : R
  exit_price : R
  exit_date : String
  status : String
  delta : R
  gamma : R
  theta : R
  vega : R
  iv : R
  pnl : R
  notes : String
  deriving Repr, DecidableEq

/-- The `MarketSnapshot` dataclass of `paper_trading_bot.py`. -/
structure MarketSnapshot (R : Type) where
  timestamp : String
  nifty_price : R
  vix_level : R
  mmi_status : String
  nifty_change : R
  nifty_change_pct : R
  market_status : String
  trading_day : ℤ
  deriving Repr, DecidableEq

/-- The quote key `f"NFO:{position.tradingsymbol}"` used by
`update_position_prices`. -/
def pkey (p : VirtualPosition R) : String := "NFO:" ++ p.tradingsymbol

/-- Whether `update_position_prices` registers `p` in `token_to_position`:
`position.status == "OPEN" and position.instrument_token > 0`. -/
abbrev elig (p : VirtualPosition R) : Prop :=
  p.status = "OPEN" ∧ 0 < p.instrument_token

/-- `token_to_position[instrument_key] = position` overwrites: when several
eligible positions share a quote key, only the one registered last is updated.
`shadowed k rest` says a later position in the list claims key `k`. -/
def shadowed (k : String) (rest : List (VirtualPosition R)) : Bool :=
  rest.any (fun r => decide (elig r ∧ pkey r = k))

/-- The per-position update performed inside the quote loop of
`update_position_prices`: take `last_price` from the quote dict (keeping the
old price if the field is absent), recompute the Greeks from the NIFTY spot
and `vix_level/100` (risk-free rate left at its `0.07` default), and set
`pnl = (current_price - entry_price) * quantity`. -/
def applyQuote (P : MathPrims R) (market : MarketSnapshot R)
    (q : List (String × R)) (p : VirtualPosition R) : VirtualPosition R :=
  let newPrice := (alookup "last_price" q).getD p.current_price
  let g := calculate_option_greeks P market.nifty_price p.strike p.expiry_days
    p.option_type (7 / 100) (market.vix_level / 100)
  { p with
    current_price := newPrice
    delta := (alookup "delta" g).getD 0
    gamma := (alookup "gamma" g).getD 0
    theta := (alookup "theta" g).getD 0
    vega := (alookup "vega" g).getD 0
    pnl := (newPrice - p.entry_price) * (p.quantity : R) }

/-- `PaperTradingBot.update_position_prices`, with the `kite.get_quote`
response passed in as `quotes` (a dict keyed by `NFO:<tradingsymbol>`).  A
position is updated exactly when it is OPEN with a positive instrument token,
its key has a quote, and no later eligible position shadows it in
`token_to_position`; every other position is returned untouched. -/
def update_position_prices (P : MathPrims R) (market : MarketSnapshot R)
    (quotes : List (String × List (String × R))) :
    List (VirtualPosition R) → List (VirtualPosition R)
  | [] => []
  | p :: rest =>
    (match alookup (pkey p) quotes with
     | some q =>
       if elig p ∧ shadowed (pkey p) rest = false then applyQuote P market q p else p
     | none => p) :: update_position_prices P market quotes rest

/-- The `VirtualTrade` ledger-entry dataclass of `paper_trading_bot.py`.
`trade_id` keeps the numeric counter behind the `f"PT{counter:04d}"` tag; the
wall-clock `date`/`time` stamps are modelled as opaque strings fixed at "". -/
structure VirtualTrade (R : Type) where
  trade_id : ℕ
  action : String
  symbol : String
  tradingsymbol : String
  quantity : ℕ
  price : R
  total_value : R
  fees : R
  cash_impact : R
  balance_after : R
  notes : String
  deriving Repr, DecidableEq

/-- The ledger-relevant state of `PaperTradingBot`: running cash, the
append-only trade ledger, the trade-id counter and the per-lot brokerage. -/
structure BotState (R : Type) where
  available_cash : R
  trade_ledger : List (VirtualTrade R)
  trade_counter : ℕ
  brokerage_per_lot : R
  deriving Repr, DecidableEq

/-- `PaperTradingBot.execute_virtual_trade`.  The counter is bumped before the
funds check, exactly as in the source; a BUY whose `|cash_impact|` exceeds the
available cash returns `False` with no ledger append and no cash change; the
surrounding `try:`/`except:` returns `False` on any exception, so the call
always returns normally (`PyResult.ok`). -/
def execute_virtual_trade (s : BotState R) (action symbol : String)
    (quantity : ℤ) (price : R) (notes : String) : PyResult Bool × BotState R :=
  let total_value : R := (quantity.natAbs : R) * price
  let fees : R := (quantity.natAbs : R) * s.brokerage_per_lot
  let cash_impact : R := if action = "BUY" then -(total_value + fees) else total_value - fees
  if action = "BUY" ∧ s.available_cash < |cash_impact| then
    (.ok false, { s with trade_counter := s.trade_counter + 1 })
  else
    let trade : VirtualTrade R :=
      { trade_id := s.trade_counter
        action := action
        symbol := symbol
        tradingsymbol := symbol
        quantity := quantity.natAbs
        price := price
        total_value := total_value
        fees := fees
        cash_impact := cash_impact
        balance_after := s.available_cash + cash_impact
        notes := notes }
    (.ok true,
      { s with
        trade_ledger := s.trade_ledger ++ [trade]
        available_cash := s.available_cash + cash_impact
        trade_counter := s.trade_counter + 1 })

/-- A requested virtual trade: the arguments of one `execute_virtual_trade`
call. -/
structure TradeRequest (R : Type) where
  action : String
  symbol : String
  quantity : ℤ
  price : R
  notes : String

/-- Run a sequence of `execute_virtual_trade` calls against a bot state. -/
def run_trades (s : BotState R) : List (TradeRequest R) → BotState R
  | [] => s
  | r :: rs => run_trades (execute_virtual_trade s r.action r.symbol r.quantity r.price r.notes).2 rs

/-- The conservation chain of the trade ledger: the `balance_after` of entry
`n` equals the `balance_after` of entry `n-1` (the initial balance for
`n = 0`) plus the `cash_impact` of entry `n`. -/
def ledger_chain (bal : R) : List (VirtualTrade R) → Prop
  | [] => True
  | t :: rest => t.balance_after = bal + t.cash_impact ∧ ledger_chain t.balance_after rest

/-- Sum of the `cash_impact` column of a ledger. -/
def sum_impacts (l : List (VirtualTrade R)) : R :=
  (l.map (fun t => t.cash_impact)).sum

/-- The `StrategyPosition` dataclass of `strategies/base_strategy.py`. -/
structure StrategyPosition (R : Type) where
  symbol : String
  tradingsymbol : String
  instrument_token : ℤ
  strike : R
  option_type : String
  expiry : String
  quantity : ℤ
  entry_price : R
  entry_date : String
  current_price : R
  exit_price : R
  exit_date : String
  status : String
  notes : String
  deriving Repr, DecidableEq

/-- The state of a `BaseStrategy` instance (`strategies/base_strategy.py`). -/
structure BaseStrategy (R : Type) where
  name : String
  total_capital : R
  strategy_allocation : R
  available_cash : R
  positions : List (StrategyPosition R)
  deriving Repr, DecidableEq

/-- `BaseStrategy.get_invested_amount`: fold `total += abs(quantity) *
entry_price` over the OPEN positions. -/
def get_invested_amount (s : BaseStrategy R) : R :=
  s.positions.foldl
    (fun total pos =>
      if pos.status = "OPEN" then total + (pos.quantity.natAbs : R) * pos.entry_price
      else total)
    0

/-- The strategy-registry state of `ModularPaperTradingEngine`:
`self.strategies` and `self.strategy_allocations`, both dicts keyed by the
strategy name. -/
structure EngineState (R : Type) where
  strategies : List (String × BaseStrategy R)
  strategy_allocations : List (String × R)
  deriving Repr, DecidableEq

/-- `ModularPaperTradingEngine.add_strategy`: two unconditional dict writes
(`self.strategies[strategy.name] = strategy`;
`self.strategy_allocations[strategy.name] = allocation`).  There is no
duplicate check and no exception path. -/
def add_strategy (e : EngineState R) (s : BaseStrategy R) (allocation : R) :
    PyResult Unit × EngineState R :=
  (.ok (),
    { strategies := dinsert s.name s e.strategies
      strategy_allocations := dinsert s.name allocation e.strategy_allocations })

theorem sum_impacts_append (l : List (VirtualTrade R)) (t : VirtualTrade R) :
    sum_impacts (l ++ [t]) = sum_impacts l + t.cash_impact := by
  simp [sum_impacts]

theorem ledger_chain_append (b : R) (l : List (VirtualTrade R)) (t : VirtualTrade R)
    (hl : ledger_chain b l)
    (ht : t.balance_after = (b + sum_impacts l) + t.cash_impact) :
    ledger_chain b (l ++ [t]) := by
  induction l generalizing b with
  | nil =>
    refine ⟨?_, trivial⟩
    simpa [sum_impacts] using ht
  | cons u us ih =>
    obtain ⟨hu, hus⟩ := hl
    refine ⟨hu, ih u.balance_after hus ?_⟩
    rw [ht, hu]
    simp [sum_impacts]
    ring

theorem run_trades_conserves (b : R) (rs : List (TradeRequest R)) (s : BotState R)
    (hc : ledger_chain b s.trade_ledger)
    (hb : s.available_cash = b + sum_impacts s.trade_ledger) :
    ledger_chain b (run_trades s rs).trade_ledger ∧
      (run_trades s rs).available_cash = b + sum_impacts (run_trades s rs).trade_ledger := by
  induction rs generalizing s with
  | nil => exact ⟨hc, hb⟩
  | cons r rs ih =>
    rw [run_trades]
    by_cases h : r.action = "BUY" ∧ s.available_cash <
        |if r.action = "BUY" then
            -((r.quantity.natAbs : R) * r.price + (r.quantity.natAbs : R) * s.brokerage_per_lot)
          else (r.quantity.natAbs : R) * r.price - (r.quantity.natAbs : R) * s.brokerage_per_lot|
    · have hstep : (execute_virtual_trade s r.action r.symbol r.quantity r.price r.notes).2 =
          { s with trade_counter := s.trade_counter + 1 } := by
        simp only [execute_virtual_trade, if_pos h]
      rw [hstep]
      exact ih _ hc hb
    · have hstep : (execute_virtual_trade s r.action r.symbol r.quantity r.price r.notes).2 =
          { s with
            trade_ledger := s.trade_ledger ++
              [{ trade_id := s.trade_counter
                 action := r.action
                 symbol := r.symbol
                 tradingsymbol := r.symbol
                 quantity := r.quantity.natAbs
                 price := r.price
                 total_value := (r.quantity.natAbs : R) * r.price
                 fees := (r.quantity.natAbs : R) * s.brokerage_per_lot
                 cash_impact :=
                   if r.action = "BUY" then
                     -((r.quantity.natAbs : R) * r.price +
                       (r.quantity.natAbs : R) * s.brokerage_per_lot)
                   else (r.quantity.natAbs : R) * r.price -
                     (r.quantity.natAbs : R) * s.brokerage_per_lot
                 balance_after := s.available_cash +
                   (if r.action = "BUY" then
                     -((r.quantity.natAbs : R) * r.price +
                       (r.quantity.natAbs : R) * s.brokerage_per_lot)
                   else (r.quantity.natAbs : R) * r.price -
                     (r.quantity.natAbs : R) * s.brokerage_per_lot)
                 notes := r.notes }]
            available_cash := s.available_cash +
              (if r.action = "BUY" then
                -((r.quantity.natAbs : R) * r.price +
                  (r.quantity.natAbs : R) * s.brokerage_per_lot)
              else (r.quantity.natAbs : R) * r.price -
                (r.quantity.natAbs : R) * s.brokerage_per_lot)
            trade_counter := s.trade_counter + 1 } := by
        simp only [execute_virtual_trade, if_neg h]
      rw [hstep]
      refine ih _ ?_ ?_
      · exact ledger_chain_append b _ _ hc (by rw [hb])
      · rw [sum_impacts_append, hb]; ring

/-- C1: ledger conservation.  For every sequence of `execute_virtual_trade`
calls starting from cash balance `B0` with an empty ledger, every recorded
trade has `balance_after` equal to the previous balance (the `balance_after`
of the previous entry, or `B0` for the first entry) plus the `cash_impact` of
that trade, and the final `available_cash` equals `B0` plus the sum of all
recorded `cash_impact` values. -/
theorem ledger_conservation (B0 fee : R) (rs : List (TradeRequest R)) :
    ledger_chain B0 (run_trades ⟨B0, [], 1, fee⟩ rs).trade_ledger ∧
      (run_trades (⟨B0, [], 1, fee⟩ : BotState R) rs).available_cash =
        B0 + sum_impacts (run_trades (⟨B0, [], 1, fee⟩ : BotState R) rs).trade_ledger :=
  run_trades_conserves B0 rs _ trivial (by simp [sum_impacts])

/-- C10: SELL trades are never rejected for insufficient funds.  For every bot
state — whatever the current cash balance, including when fees exceed the
proceeds so the net `cash_impact` is negative — a SELL is recorded in the
ledger with `cash_impact = total_value - fees`, the cash balance is adjusted
by that `cash_impact`, and the call reports success. -/
theorem sell_never_rejected (s : BotState R) (symbol : String) (quantity : ℤ)
    (price : R) (notes : String) :
    (execute_virtual_trade s "SELL" symbol quantity price notes).1 = .ok true ∧
      (execute_virtual_trade s "SELL" symbol quantity price notes).2.trade_ledger =
        s.trade_ledger ++
          [{ trade_id := s.trade_counter
             action := "SELL"
             symbol := symbol
             tradingsymbol := symbol
             quantity := quantity.natAbs
             price := price
             total_value := (quantity.natAbs : R) * price
             fees := (quantity.natAbs : R) * s.brokerage_per_lot
             cash_impact := (quantity.natAbs : R) * price -
               (quantity.natAbs : R) * s.brokerage_per_lot
             balance_after := s.available_cash + ((quantity.natAbs : R) * price -
               (quantity.natAbs : R) * s.brokerage_per_lot)
             notes := notes }] ∧
      (execute_virtual_trade s "SELL" symbol quantity price notes).2.available_cash =
        s.available_cash + ((quantity.natAbs : R) * price -
          (quantity.natAbs : R) * s.brokerage_per_lot) := by
  refine ⟨?_, ?_, ?_⟩ <;> simp [execute_virtual_trade]

/-- C6 (amended): a BUY whose `|cash_impact|` (= total cost plus fees for a
non-negative price) exceeds the available cash fails by returning `False` —
no exception of any kind is raised — and atomically: no ledger entry is
recorded and the cash balance is unchanged (only the trade counter is
bumped). -/
theorem insufficient_funds_buy_rejected (s : BotState R) (symbol : String)
    (quantity : ℤ) (price : R) (notes : String)
    (h : s.available_cash <
      |-(((quantity.natAbs : R) * price + (quantity.natAbs : R) * s.brokerage_per_lot))|) :
    execute_virtual_trade s "BUY" symbol quantity price notes =
      (.ok false, { s with trade_counter := s.trade_counter + 1 }) := by
  simp only [execute_virtual_trade]
  rw [if_pos ⟨trivial, h⟩]

theorem insufficient_funds_buy_rejected_witness :
    execute_virtual_trade (⟨100, [], 1, 20⟩ : BotState ℚ) "BUY" "NIFTY26000CE" 1 200 "" =
      (.ok false, ⟨100, [], 2, 20⟩) :=
  insufficient_funds_buy_rejected ⟨100, [], 1, 20⟩ "NIFTY26000CE" 1 200 "" (by norm_num)

/-- C6 (counterexample to the claim as stated): on an insufficient-funds BUY
the code returns normally with `False` — the result is `PyResult.ok false`,
not `PyResult.raised "InsufficientFundsError"`; no `InsufficientFundsError`
class exists anywhere in the source.  Cash 100, buying 1 lot at 200 with
brokerage 20 needs 220. -/
theorem insufficient_funds_returns_false :
    execute_virtual_trade (⟨100, [], 1, 20⟩ : BotState ℚ) "BUY" "NIFTY26000CE" 1 200 "" =
      (.ok false, ⟨100, [], 2, 20⟩) ∧
      (execute_virtual_trade (⟨100, [], 1, 20⟩ : BotState ℚ) "BUY" "NIFTY26000CE" 1 200 "").1 ≠
        .raised "InsufficientFundsError" := by
  constructor
  · simp [execute_virtual_trade]
    norm_num
  · simp [execute_virtual_trade]
    rw [if_pos (show (100 : ℚ) < |-20 + -200| by norm_num)]
    simp

theorem alookup_dinsert_self {α : Type} (k : String) (v : α)
    (m : List (String × α)) : alookup k (dinsert k v m) = some v := by
  induction m with
  | nil => simp [dinsert, alookup]
  | cons kv rest ih =>
    by_cases h : kv.1 = k
    · simp [dinsert, alookup, h]
    · simp [dinsert, alookup, h, ih]

/-- C7 (amended): registering a second strategy under an already-registered
name does not raise — `add_strategy` returns normally — and silently
replaces the first registration: afterwards the registry maps the name to the
second strategy object and the second allocation. -/
theorem add_strategy_overwrites (e : EngineState R) (s1 s2 : BaseStrategy R)
    (a1 a2 : R) (h : s2.name = s1.name) :
    (add_strategy (add_strategy e s1 a1).2 s2 a2).1 = .ok () ∧
      alookup s1.name (add_strategy (add_strategy e s1 a1).2 s2 a2).2.strategies = some s2 ∧
      alookup s1.name (add_strategy (add_strategy e s1 a1).2 s2 a2).2.strategy_allocations =
        some a2 := by
  refine ⟨rfl, ?_, ?_⟩ <;>
    simp [add_strategy, h, alookup_dinsert_self]

theorem add_strategy_overwrites_witness :
    (add_strategy (add_strategy (⟨[], []⟩ : EngineState ℚ)
        ⟨"VolatilityArbitrage", 500000, 38550, 38550, []⟩ 38550).2
      ⟨"VolatilityArbitrage", 500000, 20000, 11111, []⟩ 20000).1 = .ok () ∧
      alookup "VolatilityArbitrage" (add_strategy (add_strategy (⟨[], []⟩ : EngineState ℚ)
          ⟨"VolatilityArbitrage", 500000, 38550, 38550, []⟩ 38550).2
        ⟨"VolatilityArbitrage", 500000, 20000, 11111, []⟩ 20000).2.strategies =
        some ⟨"VolatilityArbitrage", 500000, 20000, 11111, []⟩ ∧
      alookup "VolatilityArbitrage" (add_strategy (add_strategy (⟨[], []⟩ : EngineState ℚ)
          ⟨"VolatilityArbitrage", 500000, 38550, 38550, []⟩ 38550).2
        ⟨"VolatilityArbitrage", 500000, 20000, 11111, []⟩ 20000).2.strategy_allocations =
        some 20000 :=
  add_strategy_overwrites ⟨[], []⟩ ⟨"VolatilityArbitrage", 500000, 38550, 38550, []⟩
    ⟨"VolatilityArbitrage", 500000, 20000, 11111, []⟩ 38550 20000 rfl

/-- C7 (counterexample to the claim as stated): registering two strategies
with the same name raises nothing (`add_strategy` has no duplicate check and
returns `PyResult.ok ()`), and the first registration does not remain intact:
the registry now holds the second strategy, which differs from the first. -/
theorem duplicate_strategy_silently_replaced :
    (add_strategy (add_strategy (⟨[], []⟩ : EngineState ℚ)
        ⟨"VOL", 500000, 38550, 38550, []⟩ 38550).2
      ⟨"VOL", 500000, 20000, 11111, []⟩ 20000).1 ≠ .raised "DuplicateStrategyError" ∧
      alookup "VOL" (add_strategy (add_strategy (⟨[], []⟩ : EngineState ℚ)
          ⟨"VOL", 500000, 38550, 38550, []⟩ 38550).2
        ⟨"VOL", 500000, 20000, 11111, []⟩ 20000).2.strategies =
        some ⟨"VOL", 500000, 20000, 11111, []⟩ ∧
      (⟨"VOL", 500000, 20000, 11111, []⟩ : BaseStrategy ℚ) ≠
        ⟨"VOL", 500000, 38550, 38550, []⟩ := by
  refine ⟨?_, ?_, ?_⟩ <;> decide

theorem invested_amount_foldl (l : List (StrategyPosition R)) (a : R) :
    l.foldl
        (fun total pos =>
          if pos.status = "OPEN" then total + (pos.quantity.natAbs : R) * pos.entry_price
          else total) a =
      a + ((l.filter (fun pos => pos.status = "OPEN")).map
        (fun pos => (pos.quantity.natAbs : R) * pos.entry_price)).sum := by
  induction l generalizing a with
  | nil => simp
  | cons p ps ih =>
    by_cases h : p.status = "OPEN"
    · simp [List.foldl_cons, List.filter_cons, h, ih]
      ring
    · simp [List.foldl_cons, List.filter_cons, h, ih]

/-- C8: the invested amount of a strategy equals the sum of
`|quantity| * entry_price` over its OPEN positions, and for the spec scenario
(long 25 lots at 1100 and short 25 lots at 350, both OPEN) it equals
`25*1100 + 25*350 = 36250`, within the 0.01 rounding tolerance. -/
theorem invested_amount_correct :
    (∀ s : BaseStrategy ℚ, get_invested_amount s =
        ((s.positions.filter (fun pos => pos.status = "OPEN")).map
          (fun pos => (pos.quantity.natAbs : ℚ) * pos.entry_price)).sum) ∧
      get_invested_amount
        (⟨"VolatilityArbitrage", 500000, 38550, 38550 - 36250,
          [⟨"NIFTY", "NIFTY26000CE", 1, 26000, "CE", "2026-03-26", 25, 1100, "",
            1100, 0, "", "OPEN", ""⟩,
           ⟨"NIFTY", "NIFTY26500CE", 2, 26500, "CE", "2025-11-27", -25, 350, "",
            350, 0, "", "OPEN", ""⟩]⟩ : BaseStrategy ℚ) = 36250 ∧
      |get_invested_amount
        (⟨"VolatilityArbitrage", 500000, 38550, 38550 - 36250,
          [⟨"NIFTY", "NIFTY26000CE", 1, 26000, "CE", "2026-03-26", 25, 1100, "",
            1100, 0, "", "OPEN", ""⟩,
           ⟨"NIFTY", "NIFTY26500CE", 2, 26500, "CE", "2025-11-27", -25, 350, "",
            350, 0, "", "OPEN", ""⟩]⟩ : BaseStrategy ℚ) - 36250| ≤ 1 / 100 := by
  refine ⟨fun s => ?_, ?_, ?_⟩
  · simpa using invested_amount_foldl (R := ℚ) s.positions 0
  · norm_num [get_invested_amount, List.foldl]
  · norm_num [get_invested_amount, List.foldl]

/-- C2 (amended): for every input with `time_to_expiry_years ≤ 0` the Greeks
computation returns the dict with all four Greek fields (`delta`, `gamma`,
`theta`, `vega`) equal to zero and nothing else — in particular no `price`
field and no intrinsic value — without raising (the body returns before any
partial operation, so `some` is produced even before the `except:` handler is
considered), and since the result is this constant for every `volatility`, it
is independent of the volatility input. -/
theorem expired_option_zero_greeks (P : MathPrims R) (spot strike : R)
    (expiry_days : ℤ) (option_type : String) (risk_free_rate volatility : R)
    (h : (expiry_days : R) / 365 ≤ 0) :
    calculate_option_greeks P spot strike expiry_days option_type
        risk_free_rate volatility = zeroGreeks ∧
      calculate_option_greeks_body P spot strike expiry_days option_type
        risk_free_rate volatility = some zeroGreeks := by
  constructor <;>
    simp only [calculate_option_greeks, calculate_option_greeks_body, if_pos h,
      Option.getD_some]

theorem expired_option_zero_greeks_witness :
    calculate_option_greeks (⟨id, id, id, id, 3⟩ : MathPrims ℚ) 26000 26000 (-5) "CE"
        (7 / 100) (20 / 100) = zeroGreeks ∧
      calculate_option_greeks_body (⟨id, id, id, id, 3⟩ : MathPrims ℚ) 26000 26000 (-5) "CE"
        (7 / 100) (20 / 100) = some zeroGreeks :=
  expired_option_zero_greeks ⟨id, id, id, id, 3⟩ 26000 26000 (-5) "CE" (7 / 100) (20 / 100)
    (by norm_num)

/-- C2 (counterexample to the claim as stated): the claim requires the result
of the Greeks computation on an expired option to carry `price` equal to the
intrinsic value, but `calculate_option_greeks` returns only the four Greek
fields — the returned dict has no `price` entry at all (here: an option five
days past expiry). -/
theorem expired_option_has_no_price_field :
    alookup "price" (calculate_option_greeks (⟨id, id, id, id, 3⟩ : MathPrims ℚ)
      26000 26000 (-5) "CE" (7 / 100) (20 / 100)) = none := by
  have h : ((-5 : ℤ) : ℚ) / 365 ≤ 0 := by norm_num
  simp only [calculate_option_greeks, calculate_option_greeks_body, if_pos h,
    Option.getD_some, zeroGreeks]
  simp [alookup]

theorem alookup_cons_self {α : Type} (k : String) (v : α) (rest : List (String × α)) :
    alookup k ((k, v) :: rest) = some v := by
  simp [alookup]

/-- When the body does not early-return and does not raise, the recorded delta
is `round(N(d1), 4)` for a call and `round(N(d1) - 1, 4)` for a put. -/
theorem greeks_delta_eq (P : MathPrims R) (spot strike : R) (expiry_days : ℤ)
    (option_type : String) (risk_free_rate volatility : R)
    (hT : 0 < (expiry_days : R) / 365)
    (hvalid : ¬ greeks_err P spot strike volatility ((expiry_days : R) / 365)) :
    alookup "delta" (calculate_option_greeks P spot strike expiry_days option_type
        risk_free_rate volatility) =
      some (round_to 4 (if pyUpper option_type = "CE"
        then norm_cdf P (bs_d1 P spot strike ((expiry_days : R) / 365)
          risk_free_rate volatility)
        else norm_cdf P (bs_d1 P spot strike ((expiry_days : R) / 365)
          risk_free_rate volatility) - 1)) := by
  simp only [calculate_option_greeks, calculate_option_greeks_body,
    if_neg (not_le.2 hT), if_neg hvalid, Option.getD_some]
  exact alookup_cons_self _ _ _

theorem round_to_sub_one (n : ℕ) (x : R) : round_to n (x - 1) = round_to n x - 1 := by
  unfold round_to
  have h10 : ((10 : R) ^ n) ≠ 0 := by positivity
  have hx : (x - 1) * 10 ^ n = x * 10 ^ n - ((10 ^ n : ℤ) : R) := by push_cast; ring
  rw [hx, round_sub_int]
  push_cast
  field_simp

/-- C3: put-call delta relation.  For identical spot, strike, expiry,
risk-free rate and volatility, with positive time to expiry and inputs that
raise no exception in the body, the recorded delta of the call (`"CE"`) minus
the recorded delta of the put (`"PE"`) equals 1 — the `round(_, 4)` applied
to both deltas preserves the relation exactly. -/
theorem put_call_delta_relation (P : MathPrims R) (spot strike : R)
    (expiry_days : ℤ) (risk_free_rate volatility : R)
    (hT : 0 < (expiry_days : R) / 365)
    (hvalid : ¬ greeks_err P spot strike volatility ((expiry_days : R) / 365)) :
    (alookup "delta" (calculate_option_greeks P spot strike expiry_days "CE"
        risk_free_rate volatility)).getD 0 -
      (alookup "delta" (calculate_option_greeks P spot strike expiry_days "PE"
        risk_free_rate volatility)).getD 0 = 1 := by
  have hce : pyUpper "CE" = "CE" := by decide
  have hpe : ¬ pyUpper "PE" = "CE" := by decide
  rw [greeks_delta_eq P spot strike expiry_days "CE" risk_free_rate volatility hT hvalid,
    greeks_delta_eq P spot strike expiry_days "PE" risk_free_rate volatility hT hvalid]
  simp only [Option.getD_some, if_pos hce, if_neg hpe]
  rw [round_to_sub_one]
  ring

theorem put_call_delta_relation_witness :
    (alookup "delta" (calculate_option_greeks (⟨id, id, id, id, 3⟩ : MathPrims ℚ)
        26000 26000 365 "CE" (7 / 100) (20 / 100))).getD 0 -
      (alookup "delta" (calculate_option_greeks (⟨id, id, id, id, 3⟩ : MathPrims ℚ)
        26000 26000 365 "PE" (7 / 100) (20 / 100))).getD 0 = 1 :=
  put_call_delta_relation ⟨id, id, id, id, 3⟩ 26000 26000 365 (7 / 100) (20 / 100)
    (by norm_num)
    (by
      simp only [greeks_err, id]
      norm_num)

/-- C9 (amended): a position whose instrument key is absent from the quote
response is left entirely unchanged by `update_position_prices` — every field,
`current_price` included, is exactly as before, and no error is raised (the
call is total).  No staleness flag exists to be set. -/
theorem stale_quote_position_unchanged (P : MathPrims R) (market : MarketSnapshot R)
    (quotes : List (String × List (String × R))) (ps : List (VirtualPosition R))
    (i : ℕ) (p : VirtualPosition R) (hp : ps[i]? = some p)
    (habs : alookup (pkey p) quotes = none) :
    (update_position_prices P market quotes ps)[i]? = some p := by
  induction ps generalizing i with
  | nil => simp at hp
  | cons a rest ih =>
    cases i with
    | zero =>
      rw [List.getElem?_cons_zero, Option.some.injEq] at hp
      subst hp
      rw [update_position_prices, List.getElem?_cons_zero, habs]
    | succ n =>
      rw [List.getElem?_cons_succ] at hp
      rw [update_position_prices, List.getElem?_cons_succ]
      exact ih n hp

theorem stale_quote_position_unchanged_witness :
    (update_position_prices (⟨id, id, id, id, 3⟩ : MathPrims ℚ)
        ⟨"", 26000, 15, "", 0, 0, "OPEN", 1⟩
        [("NFO:OTHER", [("last_price", 123)])]
        [⟨"PT0001", "NIFTY", "NIFTY26000CE", 123, 26000, "CE", 30, 25, 1100, "",
          1100, 0, "", "OPEN", 1/2, 1/100, -5, 3, 0, 0, ""⟩])[0]? =
      some ⟨"PT0001", "NIFTY", "NIFTY26000CE", 123, 26000, "CE", 30, 25, 1100, "",
        1100, 0, "", "OPEN", 1/2, 1/100, -5, 3, 0, 0, ""⟩ :=
  stale_quote_position_unchanged ⟨id, id, id, id, 3⟩ ⟨"", 26000, 15, "", 0, 0, "OPEN", 1⟩
    [("NFO:OTHER", [("last_price", 123)])] _ 0 _ rfl (by simp [alookup, pkey])

/-- C9 (counterexample to the claim as stated): the claim requires a staleness
flag to be set for a position absent from the quote response, but revaluation
is the identity on such a position — the output position equals the input in
every field, and neither `VirtualPosition` nor any other bot state carries a
staleness flag, so nothing is set. -/
theorem stale_quote_no_flag_set :
    update_position_prices (⟨id, id, id, id, 3⟩ : MathPrims ℚ)
        ⟨"", 26000, 15, "", 0, 0, "OPEN", 1⟩
        [("NFO:OTHER", [("last_price", 123)])]
        [⟨"PT0001", "NIFTY", "NIFTY26000CE", 123, 26000, "CE", 30, 25, 1100, "",
          1100, 0, "", "OPEN", 1/2, 1/100, -5, 3, 0, 0, ""⟩] =
      [⟨"PT0001", "NIFTY", "NIFTY26000CE", 123, 26000, "CE", 30, 25, 1100, "",
        1100, 0, "", "OPEN", 1/2, 1/100, -5, 3, 0, 0, ""⟩] := by
  rw [update_position_prices, update_position_prices]
  have habs : alookup (pkey
      (⟨"PT0001", "NIFTY", "NIFTY26000CE", 123, 26000, "CE", 30, 25, 1100, "",
        1100, 0, "", "OPEN", 1/2, 1/100, -5, 3, 0, 0, ""⟩ : VirtualPosition ℚ))
      [("NFO:OTHER", [("last_price", (123 : ℚ))])] = none := by
    simp [alookup, pkey]
  rw [habs]

theorem update_position_prices_getElem (P : MathPrims R) (market : MarketSnapshot R)
    (quotes : List (String × List (String × R))) (ps : List (VirtualPosition R))
    (i : ℕ) (p : VirtualPosition R) (q : List (String × R))
    (hp : ps[i]? = some p) (helig : elig p)
    (hq : alookup (pkey p) quotes = some q)
    (hlast : shadowed (pkey p) (ps.drop (i + 1)) = false) :
    (update_position_prices P market quotes ps)[i]? = some (applyQuote P market q p) := by
  induction ps generalizing i with
  | nil => simp at hp
  | cons a rest ih =>
    cases i with
    | zero =>
      rw [List.getElem?_cons_zero, Option.some.injEq] at hp
      subst hp
      rw [List.drop_succ_cons, List.drop_zero] at hlast
      rw [update_position_prices, List.getElem?_cons_zero, hq]
      exact congrArg some (if_pos ⟨helig, hlast⟩)
    | succ n =>
      rw [List.getElem?_cons_succ] at hp
      rw [List.drop_succ_cons] at hlast
      rw [update_position_prices, List.getElem?_cons_succ]
      exact ih n hp hlast

/-- C4: revaluation of an OPEN position whose key is quoted sets
`pnl = (current_price - entry_price) * quantity` (with `current_price` the
freshly pulled `last_price`); consequently a long position (`quantity > 0`)
whose updated `current_price` exceeds `entry_price` has strictly positive
P&L, and a short position (`quantity < 0`) with the same price move has
strictly negative P&L. -/
theorem pnl_formula_and_sign (P : MathPrims R) (market : MarketSnapshot R)
    (quotes : List (String × List (String × R))) (ps : List (VirtualPosition R))
    (i : ℕ) (p : VirtualPosition R) (q : List (String × R))
    (hp : ps[i]? = some p)
    (hopen : p.status = "OPEN") (htok : 0 < p.instrument_token)
    (hq : alookup (pkey p) quotes = some q)
    (hlast : shadowed (pkey p) (ps.drop (i + 1)) = false) :
    (update_position_prices P market quotes ps)[i]? = some (applyQuote P market q p) ∧
      (applyQuote P market q p).pnl =
        ((applyQuote P market q p).current_price - p.entry_price) * (p.quantity : R) ∧
      (applyQuote P market q p).current_price =
        (alookup "last_price" q).getD p.current_price ∧
      (0 < p.quantity → p.entry_price < (applyQuote P market q p).current_price →
        0 < (applyQuote P market q p).pnl) ∧
      (p.quantity < 0 → p.entry_price < (applyQuote P market q p).current_price →
        (applyQuote P market q p).pnl < 0) := by
  refine ⟨update_position_prices_getElem P market quotes ps i p q hp ⟨hopen, htok⟩ hq hlast,
    rfl, rfl, ?_, ?_⟩
  · intro hqty hmove
    have h1 : (0 : R) < (p.quantity : R) := by exact_mod_cast hqty
    have h2 : (0 : R) < (applyQuote P market q p).current_price - p.entry_price :=
      sub_pos.2 hmove
    simpa [applyQuote] using mul_pos h2 h1
  · intro hqty hmove
    have h1 : ((p.quantity : R)) < 0 := by exact_mod_cast hqty
    have h2 : (0 : R) < (applyQuote P market q p).current_price - p.entry_price :=
      sub_pos.2 hmove
    simpa [applyQuote] using mul_neg_of_pos_of_neg h2 h1

/-- Position used to exercise `pnl_formula_and_sign` concretely: long 25 lots
at entry 1100, quoted at 1200. -/
def samplePnlPos : VirtualPosition ℚ :=
  ⟨"PT0002", "NIFTY", "NIFTY26000CE", 123, 26000, "CE", 30, 25, 1100, "",
    1100, 0, "", "OPEN", 0, 0, 0, 0, 0, 0, ""⟩

/-- Market snapshot with `vix_level = 0`, so the Greeks recomputation inside
`applyQuote` degrades to the zero dict and the quote evaluation stays
elementary. -/
def sampleMarket : MarketSnapshot ℚ := ⟨"", 26000, 0, "", 0, 0, "OPEN", 1⟩

theorem pnl_formula_and_sign_witness :
    (update_position_prices (⟨id, id, id, id, 3⟩ : MathPrims ℚ) sampleMarket
        [("NFO:NIFTY26000CE", [("last_price", 1200)])] [samplePnlPos])[0]? =
      some (applyQuote ⟨id, id, id, id, 3⟩ sampleMarket [("last_price", 1200)] samplePnlPos) ∧
      (applyQuote (⟨id, id, id, id, 3⟩ : MathPrims ℚ) sampleMarket [("last_price", 1200)]
          samplePnlPos).pnl =
        ((applyQuote (⟨id, id, id, id, 3⟩ : MathPrims ℚ) sampleMarket [("last_price", 1200)]
          samplePnlPos).current_price - samplePnlPos.entry_price) * (samplePnlPos.quantity : ℚ) ∧
      (applyQuote (⟨id, id, id, id, 3⟩ : MathPrims ℚ) sampleMarket [("last_price", 1200)]
          samplePnlPos).current_price =
        (alookup "last_price" [("last_price", (1200 : ℚ))]).getD samplePnlPos.current_price ∧
      (0 < samplePnlPos.quantity →
        samplePnlPos.entry_price < (applyQuote (⟨id, id, id, id, 3⟩ : MathPrims ℚ) sampleMarket
          [("last_price", 1200)] samplePnlPos).current_price →
        0 < (applyQuote (⟨id, id, id, id, 3⟩ : MathPrims ℚ) sampleMarket
          [("last_price", 1200)] samplePnlPos).pnl) ∧
      (samplePnlPos.quantity < 0 →
        samplePnlPos.entry_price < (applyQuote (⟨id, id, id, id, 3⟩ : MathPrims ℚ) sampleMarket
          [("last_price", 1200)] samplePnlPos).current_price →
        (applyQuote (⟨id, id, id, id, 3⟩ : MathPrims ℚ) sampleMarket
          [("last_price", 1200)] samplePnlPos).pnl < 0) :=
  pnl_formula_and_sign ⟨id, id, id, id, 3⟩ sampleMarket
    [("NFO:NIFTY26000CE", [("last_price", 1200)])] [samplePnlPos] 0 samplePnlPos
    [("last_price", 1200)] rfl rfl (by decide) rfl rfl

/-- C5 (amended): pricing inputs that make the body of
`calculate_option_greeks` raise internally — a non-positive `spot/strike`
ratio (e.g. spot ≤ 0 with a positive strike), a zero strike, or a zero
denominator such as zero volatility — do not surface any error: the
`except:` handler returns the all-zero Greeks dict, and the revaluation at
the position boundary then overwrites the prior Greeks of the position with
those zeros rather than leaving them unchanged. -/
theorem invalid_inputs_degrade_to_zero (P : MathPrims R) (market : MarketSnapshot R)
    (quotes : List (String × List (String × R))) (p : VirtualPosition R)
    (q : List (String × R))
    (hq : alookup (pkey p) quotes = some q)
    (hopen : p.status = "OPEN") (htok : 0 < p.instrument_token)
    (hT : ¬ ((p.expiry_days : R) / 365 ≤ 0))
    (herr : greeks_err P market.nifty_price p.strike (market.vix_level / 100)
      ((p.expiry_days : R) / 365)) :
    calculate_option_greeks P market.nifty_price p.strike p.expiry_days p.option_type
        (7 / 100) (market.vix_level / 100) = zeroGreeks ∧
      calculate_option_greeks_body P market.nifty_price p.strike p.expiry_days p.option_type
        (7 / 100) (market.vix_level / 100) = none ∧
      ((update_position_prices P market quotes [p]).headD p).delta = 0 ∧
      ((update_position_prices P market quotes [p]).headD p).gamma = 0 ∧
      ((update_position_prices P market quotes [p]).headD p).theta = 0 ∧
      ((update_position_prices P market quotes [p]).headD p).vega = 0 := by
  have hbody : calculate_option_greeks_body P market.nifty_price p.strike p.expiry_days
      p.option_type (7 / 100) (market.vix_level / 100) = none := by
    simp only [calculate_option_greeks_body, if_neg hT, if_pos herr]
  have hzero : calculate_option_greeks P market.nifty_price p.strike p.expiry_days
      p.option_type (7 / 100) (market.vix_level / 100) = zeroGreeks := by
    simp only [calculate_option_greeks, hbody, Option.getD_none]
  have hstep : update_position_prices P market quotes [p] = [applyQuote P market q p] := by
    rw [update_position_prices, update_position_prices, hq]
    exact congrArg (fun x => [x]) (if_pos ⟨⟨hopen, htok⟩, rfl⟩)
  refine ⟨hzero, hbody, ?_, ?_, ?_, ?_⟩ <;>
    simp [hstep, applyQuote, hzero, zeroGreeks, alookup]

theorem invalid_inputs_degrade_to_zero_witness :
    calculate_option_greeks (⟨id, id, id, id, 3⟩ : MathPrims ℚ) 0 26000 30 "PE"
        (7 / 100) (15 / 100) = zeroGreeks ∧
      calculate_option_greeks_body (⟨id, id, id, id, 3⟩ : MathPrims ℚ) 0 26000 30 "PE"
        (7 / 100) (15 / 100) = none ∧
      ((update_position_prices (⟨id, id, id, id, 3⟩ : MathPrims ℚ)
        (⟨"", 0, 15, "Extreme Fear", 0, 0, "OPEN", 1⟩ : MarketSnapshot ℚ)
        [("NFO:NIFTY26000PE", [("last_price", 210)])]
        [⟨"PT0003", "NIFTY", "NIFTY26000PE", 123, 26000, "PE", 30, 10, 180, "",
          200, 0, "", "OPEN", 1/2, 2/100, -5, 3, 0, 0, ""⟩]).headD
        ⟨"PT0003", "NIFTY", "NIFTY26000PE", 123, 26000, "PE", 30, 10, 180, "",
          200, 0, "", "OPEN", 1/2, 2/100, -5, 3, 0, 0, ""⟩).delta = 0 ∧
      ((update_position_prices (⟨id, id, id, id, 3⟩ : MathPrims ℚ)
        (⟨"", 0, 15, "Extreme Fear", 0, 0, "OPEN", 1⟩ : MarketSnapshot ℚ)
        [("NFO:NIFTY26000PE", [("last_price", 210)])]
        [⟨"PT0003", "NIFTY", "NIFTY26000PE", 123, 26000, "PE", 30, 10, 180, "",
          200, 0, "", "OPEN", 1/2, 2/100, -5, 3, 0, 0, ""⟩]).headD
        ⟨"PT0003", "NIFTY", "NIFTY26000PE", 123, 26000, "PE", 30, 10, 180, "",
          200, 0, "", "OPEN", 1/2, 2/100, -5, 3, 0, 0, ""⟩).gamma = 0 ∧
      ((update_position_prices (⟨id, id, id, id, 3⟩ : MathPrims ℚ)
        (⟨"", 0, 15, "Extreme Fear", 0, 0, "OPEN", 1⟩ : MarketSnapshot ℚ)
        [("NFO:NIFTY26000PE", [("last_price", 210)])]
        [⟨"PT0003", "NIFTY", "NIFTY26000PE", 123, 26000, "PE", 30, 10, 180, "",
          200, 0, "", "OPEN", 1/2, 2/100, -5, 3, 0, 0, ""⟩]).headD
        ⟨"PT0003", "NIFTY", "NIFTY26000PE", 123, 26000, "PE", 30, 10, 180, "",
          200, 0, "", "OPEN", 1/2, 2/100, -5, 3, 0, 0, ""⟩).theta = 0 ∧
      ((update_position_prices (⟨id, id, id, id, 3⟩ : MathPrims ℚ)
        (⟨"", 0, 15, "Extreme Fear", 0, 0, "OPEN", 1⟩ : MarketSnapshot ℚ)
        [("NFO:NIFTY26000PE", [("last_price", 210)])]
        [⟨"PT0003", "NIFTY", "NIFTY26000PE", 123, 26000, "PE", 30, 10, 180, "",
          200, 0, "", "OPEN", 1/2, 2/100, -5, 3, 0, 0, ""⟩]).headD
        ⟨"PT0003", "NIFTY", "NIFTY26000PE", 123, 26000, "PE", 30, 10, 180, "",
          200, 0, "", "OPEN", 1/2, 2/100, -5, 3, 0, 0, ""⟩).vega = 0 :=
  invalid_inputs_degrade_to_zero ⟨id, id, id, id, 3⟩
    ⟨"", 0, 15, "Extreme Fear", 0, 0, "OPEN", 1⟩
    [("NFO:NIFTY26000PE", [("last_price", 210)])]
    ⟨"PT0003", "NIFTY", "NIFTY26000PE", 123, 26000, "PE", 30, 10, 180, "",
      200, 0, "", "OPEN", 1/2, 2/100, -5, 3, 0, 0, ""⟩
    [("last_price", 210)] rfl rfl (by decide) (by norm_num)
    (Or.inr (Or.inl (by norm_num)))

/-- C5 (counterexample to the claim as stated): with an invalid spot of 0
(strike 26000, 30 days to expiry) no `InvalidInputError` is raised — no such
class exists in the source — and the caller does not leave the prior Greeks
unchanged: the prior `delta = 1/2` of the position is overwritten with 0 by
`update_position_prices`. -/
theorem invalid_spot_overwrites_prior_greeks :
    ((update_position_prices (⟨id, id, id, id, 3⟩ : MathPrims ℚ)
        (⟨"", 0, 15, "Extreme Fear", 0, 0, "OPEN", 1⟩ : MarketSnapshot ℚ)
        [("NFO:NIFTY26000PE", [("last_price", 210)])]
        [⟨"PT0004", "NIFTY", "NIFTY26000PE", 123, 26000, "PE", 30, 10, 180, "",
          200, 0, "", "OPEN", 1/2, 2/100, -5, 3, 0, 0, ""⟩]).headD
        ⟨"PT0004", "NIFTY", "NIFTY26000PE", 123, 26000, "PE", 30, 10, 180, "",
          200, 0, "", "OPEN", 1/2, 2/100, -5, 3, 0, 0, ""⟩).delta = 0 ∧
      (⟨"PT0004", "NIFTY", "NIFTY26000PE", 123, 26000, "PE", 30, 10, 180, "",
        200, 0, "", "OPEN", 1/2, 2/100, -5, 3, 0, 0, ""⟩ : VirtualPosition ℚ).delta
        = 1 / 2 := by
  constructor
  · have hbody : calculate_option_greeks_body (⟨id, id, id, id, 3⟩ : MathPrims ℚ) 0 26000 30
        "PE" (7 / 100) (15 / 100) = none := by
      simp only [calculate_option_greeks_body]
      rw [if_neg (by norm_num), if_pos (Or.inr (Or.inl (by norm_num)))]
    have hzero : calculate_option_greeks (⟨id, id, id, id, 3⟩ : MathPrims ℚ) 0 26000 30
        "PE" (7 / 100) (15 / 100) = zeroGreeks := by
      simp only [calculate_option_greeks, hbody, Option.getD_none]
    have hstep : update_position_prices (⟨id, id, id, id, 3⟩ : MathPrims ℚ)
        (⟨"", 0, 15, "Extreme Fear", 0, 0, "OPEN", 1⟩ : MarketSnapshot ℚ)
        [("NFO:NIFTY26000PE", [("last_price", 210)])]
        [⟨"PT0004", "NIFTY", "NIFTY26000PE", 123, 26000, "PE", 30, 10, 180, "",
          200, 0, "", "OPEN", 1/2, 2/100, -5, 3, 0, 0, ""⟩] =
        [applyQuote ⟨id, id, id, id, 3⟩ ⟨"", 0, 15, "Extreme Fear", 0, 0, "OPEN", 1⟩
          [("last_price", 210)]
          ⟨"PT0004", "NIFTY", "NIFTY26000PE", 123, 26000, "PE", 30, 10, 180, "",
            200, 0, "", "OPEN", 1/2, 2/100, -5, 3, 0, 0, ""⟩] := by
      rw [update_position_prices, update_position_prices]
      rw [show alookup (pkey (⟨"PT0004", "NIFTY", "NIFTY26000PE", 123, 26000, "PE", 30, 10,
            180, "", 200, 0, "", "OPEN", 1/2, 2/100, -5, 3, 0, 0, ""⟩ : VirtualPosition ℚ))
          [("NFO:NIFTY26000PE", [("last_price", (210 : ℚ))])] =
          some [("last_price", (210 : ℚ))] from rfl]
      exact congrArg (fun x => [x]) (if_pos ⟨⟨rfl, by decide⟩, rfl⟩)
    rw [hstep]
    simp [applyQuote, hzero, zeroGreeks, alookup]
  · rfl

end PaperTrading
